import Mathlib

/-!
Verification of the Shopping-Agent repository.

This file gives a shallow embedding of the parts of the program the claims
talk about:

* `src/agent/parser.py` — the free-text item parser (`parse_item`);
* `src/agent/walmart.py` — product selection (`_ai_select_product`), the
  per-item retry wrapper (`search_and_add_with_retry`) and cart build
  (`build_cart`);
* `src/db/database.py` — the `update_job` SQL update, including Python
  keyword-argument binding for its call sites;
* `src/workers/job_worker.py` — `process_job` and `schedule_job`.

Machine strings are Lean `String`/`List Char`; Python `None`-able values are
`Option`; Python exceptions are an explicit `Except` with a `PyExc` error
type; `float` results are modelled as exact rationals (the claims never rely
on binary rounding); a Python call that raises is an `Except.error`.
-/

set_option maxRecDepth 4000

namespace ShoppingAgent

/-! ### ASCII character classes used by the parser's regexes -/

/-- `\s` character class (ASCII whitespace, as in the regexes of
`src/agent/parser.py`). -/
def isSpace (c : Char) : Bool :=
  c == ' ' || c == '\t' || c == '\n' || c == '\r' || c == '\x0b' || c == '\x0c'

/-- Python `str.strip()`: drop whitespace at both ends. -/
def pyStrip (l : List Char) : List Char :=
  ((l.dropWhile isSpace).reverse.dropWhile isSpace).reverse

/-- Python `str.strip(chars)`: drop the given characters at both ends. -/
def pyStripChars (chars : List Char) (l : List Char) : List Char :=
  ((l.dropWhile (chars.contains ·)).reverse.dropWhile (chars.contains ·)).reverse

/-- Worker for `normWsL`: the flag records whether the previous character was
whitespace (in which case further whitespace of the same run is dropped). -/
def normWsAux : List Char → Bool → List Char
  | [], _ => []
  | c :: rest, prevSpace =>
    if isSpace c then
      if prevSpace then normWsAux rest true else ' ' :: normWsAux rest true
    else c :: normWsAux rest false

/-- `re.sub(r"\s+", " ", s)`: collapse every whitespace run to one space. -/
def normWsL (l : List Char) : List Char := normWsAux l false

/-- Python `str.split()` worker, accumulating the current word reversed. -/
def pySplitAux : List Char → List Char → List (List Char)
  | [], acc => if acc.isEmpty then [] else [acc.reverse]
  | c :: rest, acc =>
    if isSpace c then
      if acc.isEmpty then pySplitAux rest []
      else acc.reverse :: pySplitAux rest []
    else pySplitAux rest (c :: acc)

/-- Python `str.split()` (split on whitespace runs, no empty words). -/
def pySplit (l : List Char) : List (List Char) := pySplitAux l []

/-- Python `str.rstrip("s")`: drop trailing `'s'` characters. -/
def rstripS (l : List Char) : List Char :=
  (l.reverse.dropWhile (· == 's')).reverse

/-- Decimal value of a digit string — the semantics of Python `int` on a
string of digits (as produced by a `(\d+)` regex group). -/
def digitsToNat (l : List Char) : Nat :=
  l.foldl (fun n c => n * 10 + (c.toNat - '0'.toNat)) 0

/-- Python `float` on a string drawn from the `[\d.]+` character class:
defined iff there is at least one digit and at most one dot; the result is
modelled as an exact rational.  `none` models the `ValueError` that
`float(".")` or `float("1.2.3")` raises inside `parse_item`. -/
def pyFloatQ (l : List Char) : Option ℚ :=
  if l.count '.' ≤ 1 ∧ l.any Char.isDigit then
    let ip := l.takeWhile (fun c => c != '.')
    let fp := (l.dropWhile (fun c => c != '.')).drop 1
    some ((digitsToNat ip : ℚ) + (digitsToNat fp : ℚ) / (10 ^ fp.length : ℚ))
  else none

/-! ### `src/agent/parser.py` — regex matchers

Each regex of the source is compiled by hand into a deterministic matcher.
For each one, the greedy/backtracking behaviour of the Python pattern was
traced and is deterministic at every choice point (each optional piece is
followed by a literal that cannot begin the alternative), so a single pass
with maximal munch is the exact `re.search` / `re.match` semantics. -/

/-- `_UNIT_WORDS` of `src/agent/parser.py` (verbatim). -/
def UNIT_WORDS : List String :=
  ["pack", "pk", "ct", "count", "piece", "pcs", "set",
   "kg", "g", "mg", "lb", "lbs", "oz",
   "l", "ml", "litre", "liter", "liters", "litres",
   "dozen", "box", "bag", "can", "bottle", "roll", "rolls",
   "sheet", "sheets", "pod", "pods", "tab", "tabs"]

/-- Case-insensitive literal match: consume `kw` (given lowercase) from the
front of `l`, returning the remainder. -/
def matchCI : List Char → List Char → Option (List Char)
  | [], rest => some rest
  | _ :: _, [] => none
  | k :: ks, c :: cs => if c.toLower == k then matchCI ks cs else none

/-- `up\s+to`: requires at least one whitespace character between the words. -/
def kwUpTo (l : List Char) : Option (List Char) :=
  match matchCI "up".data l with
  | none => none
  | some r =>
    let ws := r.takeWhile isSpace
    if ws.isEmpty then none else matchCI "to".data (r.drop ws.length)

/-- `at\s+most`. -/
def kwAtMost (l : List Char) : Option (List Char) :=
  match matchCI "at".data l with
  | none => none
  | some r =>
    let ws := r.takeWhile isSpace
    if ws.isEmpty then none else matchCI "most".data (r.drop ws.length)

/-- The keyword alternation `max(imum)?|under|up\s+to|at\s+most`, tried in
the regex engine's order ("maximum" before "max": the greedy optional
group). -/
def priceKeyword (l : List Char) : Option (List Char) :=
  match matchCI "maximum".data l with
  | some r => some r
  | none =>
    match matchCI "max".data l with
    | some r => some r
    | none =>
      match matchCI "under".data l with
      | some r => some r
      | none =>
        match kwUpTo l with
        | some r => some r
        | none => kwAtMost l

/-- Try `_PRICE_PAT` = `\(?\s*(?:max(?:imum)?|under|up\s+to|at\s+most)\s*:?\s*\$?([\d.]+)\s*\)?`
at the start of `l`; on success return the `([\d.]+)` group and the
remainder of the string after the whole match. -/
def priceTryAt (l : List Char) : Option (List Char × List Char) :=
  let l1 := match l with | '(' :: r => r | _ => l
  let l2 := l1.dropWhile isSpace
  match priceKeyword l2 with
  | none => none
  | some l3 =>
    let l4 := l3.dropWhile isSpace
    let l5 := match l4 with | ':' :: r => r | _ => l4
    let l6 := l5.dropWhile isSpace
    let l7 := match l6 with | '$' :: r => r | _ => l6
    let grp := l7.takeWhile (fun c => c.isDigit || c == '.')
    if grp.isEmpty then none
    else
      let l8 := (l7.drop grp.length).dropWhile isSpace
      let l9 := match l8 with | ')' :: r => r | _ => l8
      some (grp, l9)

/-- Try `_BRAND_PAT` = `\(?\s*brand\s*:\s*([^\s),]+)\s*\)?` at the start of
`l`. -/
def brandTryAt (l : List Char) : Option (List Char × List Char) :=
  let l1 := match l with | '(' :: r => r | _ => l
  let l2 := l1.dropWhile isSpace
  match matchCI "brand".data l2 with
  | none => none
  | some l3 =>
    let l4 := l3.dropWhile isSpace
    match l4 with
    | ':' :: l5 =>
      let l6 := l5.dropWhile isSpace
      let grp := l6.takeWhile (fun c => !(isSpace c) && c != ')' && c != ',')
      if grp.isEmpty then none
      else
        let l7 := (l6.drop grp.length).dropWhile isSpace
        let l8 := match l7 with | ')' :: r => r | _ => l7
        some (grp, l8)
    | _ => none

/-- `re.search`: try `tryAt` at every start position, left to right; return
`(text before the match, group, text after the match)`. -/
def searchGo (tryAt : List Char → Option (List Char × List Char)) :
    List Char → List Char → Option (List Char × List Char × List Char)
  | _, [] => none
  | acc, c :: rest =>
    match tryAt (c :: rest) with
    | some (grp, after) => some (acc.reverse, grp, after)
    | none => searchGo tryAt (c :: acc) rest

/-- `_PRICE_PAT.search`. -/
def priceSearch (l : List Char) : Option (List Char × List Char × List Char) :=
  searchGo priceTryAt [] l

/-- `_BRAND_PAT.search`. -/
def brandSearch (l : List Char) : Option (List Char × List Char × List Char) :=
  searchGo brandTryAt [] l

/-- `[xX×]` of the quantity regexes. -/
def isQtyX (c : Char) : Bool := c == 'x' || c == 'X' || c == '×'

/-- `_QTY_SUFFIX.search` for `\s+[xX×](\d+)$`: the match, when it exists, is
anchored at the end, its group is the maximal terminal digit run, and its
start is the start of the maximal whitespace run before the `x`.  Returns
`(digit group, s[:m.start()])`. -/
def qtySfxMatch (s : List Char) : Option (List Char × List Char) :=
  let r := s.reverse
  let ds := r.takeWhile Char.isDigit
  if ds.isEmpty then none
  else
    match r.drop ds.length with
    | c :: rest =>
      if isQtyX c then
        let ws := rest.takeWhile isSpace
        if ws.isEmpty then none
        else some (ds.reverse, (rest.drop ws.length).reverse)
      else none
    | [] => none

/-- `_QTY_PREFIX.match` for `^(\d+)\s*[xX×]\s+(.+)$`: returns
`(digit group, group 2)`.  `.` does not match a newline; `parse_item` only
applies this to stripped strings, for which that is the whole story. -/
def qtyPfxMatch (s : List Char) : Option (List Char × List Char) :=
  let ds := s.takeWhile Char.isDigit
  if ds.isEmpty then none
  else
    let r1 := (s.drop ds.length).dropWhile isSpace
    match r1 with
    | c :: r2 =>
      if isQtyX c then
        let ws := r2.takeWhile isSpace
        if ws.isEmpty then none
        else
          let tail := r2.drop ws.length
          if tail.isEmpty || tail.contains '\n' then none
          else some (ds, tail)
      else none
    | [] => none

/-- `_QTY_BARE.search` for `\s+(\d+)$`: returns
`(digit group, s[:m.start()])`. -/
def qtyBareMatch (s : List Char) : Option (List Char × List Char) :=
  let r := s.reverse
  let ds := r.takeWhile Char.isDigit
  if ds.isEmpty then none
  else
    let ws := (r.drop ds.length).takeWhile isSpace
    if ws.isEmpty then none
    else some (ds.reverse, (r.drop (ds.length + ws.length)).reverse)

/-- `preceding.split()[-1].lower().rstrip("s") if preceding else ""` from the
bare-integer branch of `parse_item`. -/
def lastWordNorm (l : List Char) : List Char :=
  if l.isEmpty then []
  else rstripS (((pySplit l).getLastD []).map Char.toLower)

/-! ### `parse_item` itself -/

/-- The dict returned by `parse_item`. -/
structure Parsed where
  name : String
  qty : Nat
  max_price : Option ℚ
  brand : Option String
deriving DecidableEq, Repr

/-- Step 1 of `parse_item`: extract the price constraint.  `none` models the
`ValueError` that `float` raises on a group such as `"."`. -/
def stepPrice (s : List Char) : Option (Option ℚ × List Char) :=
  match priceSearch s with
  | none => some (none, s)
  | some (bef, grp, aft) =>
    match pyFloatQ grp with
    | none => none
    | some v => some (some v, pyStrip (normWsL (bef ++ ' ' :: aft)))

/-- Step 2 of `parse_item`: extract an explicit brand. -/
def stepBrand (s : List Char) : Option String × List Char :=
  match brandSearch s with
  | none => (none, s)
  | some (bef, grp, aft) =>
    let b := pyStrip grp
    ((if b.isEmpty then none else some ⟨b⟩), pyStrip (normWsL (bef ++ ' ' :: aft)))

/-- Step 3 of `parse_item`: extract a quantity, priority
`x<N>` suffix > `<N>x` prefix > bare trailing integer (the latter only when
the preceding word, lowercased and with trailing `s` stripped, is not in
`_UNIT_WORDS`).  Returns the quantity and the remaining text. -/
def stepQty (s : List Char) : Nat × List Char :=
  match qtySfxMatch s with
  | some (ds, rest) => (digitsToNat ds, pyStrip rest)
  | none =>
    match qtyPfxMatch s with
    | some (ds, tail) => (digitsToNat ds, pyStrip tail)
    | none =>
      match qtyBareMatch s with
      | some (ds, rest) =>
        let precede := pyStrip rest
        if UNIT_WORDS.contains ⟨lastWordNorm precede⟩ then (1, s)
        else (digitsToNat ds, precede)
      | none => (1, s)

/-- Characters stripped from the ends of the final name: `" ,()[]"`. -/
def strayChars : List Char := [' ', ',', '(', ')', '[', ']']

/-- Step 4 of `parse_item`: `re.sub(r"\s+", " ", s).strip(" ,()[]")`. -/
def normName (s : List Char) : List Char :=
  pyStripChars strayChars (normWsL s)

/-- `parse_item` of `src/agent/parser.py`.  Returns `none` exactly when the
Python function raises (`float` failing on a malformed price group). -/
def parse_item (raw : String) : Option Parsed :=
  let s0 := pyStrip raw.data
  match stepPrice s0 with
  | none => none
  | some (mp, s1) =>
    let (br, s2) := stepBrand s1
    let (q, s3) := stepQty s2
    some { name := ⟨normName s3⟩, qty := max 1 q, max_price := mp, brand := br }

/-! ### `src/agent/walmart.py` — product selection

A candidate product scraped from a search results page. -/

structure Product where
  title : String
  brand : String
  price : Option ℚ
  badges : List String
  url : String
  sponsored : Bool
deriving DecidableEq, Repr

/-- `_ai_select_product` of `src/agent/walmart.py`.  The prompt construction
only shapes the model's input, which is abstracted as `aiResp`:
`some i` means the API call succeeded and the first whitespace token of the
reply parsed as the integer `i`; `none` means the call raised or the reply
was unparseable (both land in the `except` that logs and falls through).
The function returns the index only when `0 <= idx < len(products)`. -/
def ai_select_product (products : List Product) (aiResp : Option Int) : Option Nat :=
  if products.isEmpty then none
  else
    match aiResp with
    | some idx =>
      if 0 ≤ idx ∧ idx < (products.length : Int) then some idx.toNat else none
    | none => none

/-- Is `nd` a (case-sensitive) substring of the list? -/
def subAux (n : List Char) : List Char → Bool
  | [] => n.isEmpty
  | c :: rest => n.isPrefixOf (c :: rest) || subAux n rest

/-- Case-insensitive substring test. -/
def hasSubCI (hay nd : String) : Bool :=
  subAux (nd.data.map Char.toLower) (hay.data.map Char.toLower)

/-- Does the product carry a badge containing the given word
(case-insensitively)? -/
def hasBadgeCI (p : Product) (w : String) : Bool :=
  p.badges.any (fun b => hasSubCI b w)

/-- Modelled from the spec: the survivors of steps (1)–(2) of the §4.2
selection policy — brand filter (case-insensitive substring of title or
brand field) then price-ceiling filter — on the index-tagged candidate
list.  No function in `src/` implements this policy; it exists here only to
compare the spec's described fallback with what the code actually does. -/
def specSurvivors (products : List Product) (brand : Option String)
    (maxPrice : Option ℚ) : List (Nat × Product) :=
  let e := products.enum
  let e1 := match brand with
    | some b => e.filter (fun ip => hasSubCI ip.2.title b || hasSubCI ip.2.brand b)
    | none => e
  match maxPrice with
  | some m => e1.filter (fun ip =>
      match ip.2.price with
      | some pr => decide (pr ≤ m)
      | none => true)
  | none => e1

/-- Modelled from the spec: the lowest-price preference of §4.2 step (3) —
lowest known price among the pool, first position on ties, falling back to
the first candidate when no price is known. -/
def lowestPriceIdx (pool : List (Nat × Product)) : Option Nat :=
  let priced := pool.filterMap (fun ip => ip.2.price.map (fun pr => (ip.1, pr)))
  match priced with
  | [] => pool.head?.map (·.1)
  | x :: xs => some (xs.foldl (fun best y => if y.2 < best.2 then y else best) x).1

/-- Modelled from the spec: §4.2 step (3) — prefer a best-seller badge, then
a popular badge, then the lowest price. -/
def specPickFrom (pool : List (Nat × Product)) : Option Nat :=
  match pool.filter (fun ip => hasBadgeCI ip.2 "best seller") with
  | ip :: _ => some ip.1
  | [] =>
    match pool.filter (fun ip => hasBadgeCI ip.2 "popular") with
    | ip :: _ => some ip.1
    | [] => lowestPriceIdx pool

/-- Modelled from the spec: the complete deterministic rule-based selection
policy of §4.2 (brand filter, price-ceiling filter, badge preference,
lowest price, sponsored demotion), returning a single winning index or
no-match. -/
def spec_rule_based_select (products : List Product) (brand : Option String)
    (maxPrice : Option ℚ) : Option Nat :=
  let surv := specSurvivors products brand maxPrice
  let unspon := surv.filter (fun ip => !ip.2.sponsored)
  let pool := if unspon.isEmpty then surv else unspon
  specPickFrom pool

/-! ### `src/agent/walmart.py` — retry wrapper and cart build

Python exceptions relevant to the control flow under verification. -/

inductive PyExc where
  | botChallenge (msg : String)
  | typeError (msg : String)
  | other (msg : String)
deriving DecidableEq, Repr

/-- One execution of the body of `search_and_add` (everything inside its
`try`), as observed from outside: the body either returns a boolean, raises
`BotChallengeError`, or raises some other exception.  Which one happens is
decided by the browser/site and is the environment of the embedding. -/
inductive BodyOutcome where
  | ret (ok : Bool)
  | challenge (msg : String)
  | exc (msg : String)
deriving DecidableEq, Repr

/-- The exception-handler structure of `search_and_add`
(`src/agent/walmart.py` lines 701–705): `except BotChallengeError: raise`,
`except Exception: return False`. -/
def search_and_add (body : BodyOutcome) : Except PyExc Bool :=
  match body with
  | .ret ok => .ok ok
  | .challenge m => .error (.botChallenge m)
  | .exc _ => .ok false

/-- The attempt loop of `search_and_add_with_retry`: `attempt` is the
1-based loop counter, `fuel` the number of remaining iterations.  The
second component counts how many times `search_and_add` was called. -/
def sawrGo (bodies : Nat → BodyOutcome) : Nat → Nat → (Except PyExc Bool) × Nat
  | _, 0 => (.ok false, 0)
  | attempt, fuel + 1 =>
    match search_and_add (bodies attempt) with
    | .ok true => (.ok true, 1)
    | .ok false =>
      let r := sawrGo bodies (attempt + 1) fuel
      (r.1, r.2 + 1)
    | .error (.botChallenge m) => (.error (.botChallenge m), 1)
    | .error _ =>
      let r := sawrGo bodies (attempt + 1) fuel
      (r.1, r.2 + 1)

/-- `search_and_add_with_retry` of `src/agent/walmart.py`
(`for attempt in range(1, max_attempts + 1)`, default `max_attempts = 3`;
`except BotChallengeError: raise`, any other exception logged and retried,
`return False` after the loop). -/
def search_and_add_with_retry (bodies : Nat → BodyOutcome)
    (max_attempts : Nat := 3) : (Except PyExc Bool) × Nat :=
  sawrGo bodies 1 max_attempts

/-- One item dict as handed to `build_cart` by the job worker
(`name` ← row `text`, plus `qty`, `max_price`, `brand`). -/
structure CartItem where
  name : String
  qty : Nat
  max_price : Option ℚ
  brand : Option String
deriving DecidableEq, Repr

/-- The item label used in the `added`/`failed` lists:
`f"{brand} {name}".strip() if item.get("brand") else item["name"]`
(note `item.get("brand")` is falsy for `None` and for `""`). -/
def itemLabel (it : CartItem) : String :=
  match it.brand with
  | some b => if b = "" then it.name else ⟨pyStrip (b ++ " " ++ it.name).data⟩
  | none => it.name

/-- The dict returned by `build_cart`. -/
structure BuildResult where
  cart_url : String
  added : List String
  failed : List String
  screenshot : Option String
deriving DecidableEq, Repr

/-- Environment of one `build_cart` call: the outcome of every
browser-driven step.  `bodies i a` is the outcome of the body of
`search_and_add` for the `i`-th item (0-based) on its `a`-th attempt
(1-based); `warmup` / `finalNav` are the exceptions, if any, raised by the
homepage warm-up (goto + challenge check + postal code) and by the final
cart navigation + challenge check; `cartUrl` is `self.page.url` on the cart
page; `shot` is what `_safe_screenshot` returns (`none` = capture failed,
it never raises). -/
structure BuildEnv where
  bodies : Nat → Nat → BodyOutcome
  warmup : Option PyExc
  finalNav : Option PyExc
  cartUrl : String
  shot : Option String

/-- The per-item loop of `build_cart`: items in list order, each through
`search_and_add_with_retry`; a raised exception propagates, a `False`
result appends to `failed`, a `True` result appends to `added`. -/
def buildLoop (bodies : Nat → Nat → BodyOutcome) :
    List CartItem → Nat → List String → List String →
    Except PyExc (List String × List String)
  | [], _, added, failed => .ok (added, failed)
  | it :: rest, idx, added, failed =>
    match (search_and_add_with_retry (bodies idx) 3).1 with
    | .ok true => buildLoop bodies rest (idx + 1) (added ++ [itemLabel it]) failed
    | .ok false => buildLoop bodies rest (idx + 1) added (failed ++ [itemLabel it])
    | .error e => .error e

/-- `build_cart` of `src/agent/walmart.py`.  First component: the returned
dict, or the propagated exception.  Second component:
`agent.last_screenshot` after the call (set on the exception path when a
`job_id` was given, or when some item failed; otherwise `None`). -/
def build_cart (env : BuildEnv) (items : List CartItem) (job_id : Option String) :
    (Except PyExc BuildResult) × Option String :=
  match env.warmup with
  | some e => (.error e, if job_id.isSome then env.shot else none)
  | none =>
    match buildLoop env.bodies items 0 [] [] with
    | .error e => (.error e, if job_id.isSome then env.shot else none)
    | .ok (added, failed) =>
      match env.finalNav with
      | some e => (.error e, if job_id.isSome then env.shot else none)
      | none =>
        let screenshot := if !failed.isEmpty && job_id.isSome then env.shot else none
        (.ok ⟨env.cartUrl, added, failed, screenshot⟩, screenshot)

/-! ### `src/db/database.py` — the jobs table and `update_job` -/

structure JobRow where
  job_id : String
  chat_id : Int
  status : String
  result_url : Option String
  error : Option String
  created_at : Nat
  updated_at : Nat
deriving DecidableEq, Repr

/-- The `UPDATE jobs SET status = ?, result_url = ?, error = ?,
updated_at = CURRENT_TIMESTAMP WHERE job_id = ?` statement of `update_job`,
over a jobs table modelled as a row list (`now` stands for
`CURRENT_TIMESTAMP`). -/
def update_job_run (db : List JobRow) (now : Nat) (job_id status : String)
    (result_url error : Option String) : List JobRow :=
  db.map (fun r =>
    if r.job_id = job_id then
      { r with status := status, result_url := result_url,
               error := error, updated_at := now }
    else r)

/-- The keyword parameters `update_job` accepts besides the positional
`job_id`/`status`: `def update_job(job_id, status, result_url=None,
error=None)`. -/
def update_job_kwparams : List String := ["result_url", "error"]

/-- A Python call `update_job(job_id, status, **kwargs)`: keyword binding
succeeds only when every keyword names a declared parameter (otherwise the
call raises `TypeError` before the function body runs); unbound parameters
take their `None` defaults. -/
def call_update_job (db : List JobRow) (now : Nat) (job_id status : String)
    (kwargs : List (String × Option String)) : Except PyExc (List JobRow) :=
  if kwargs.all (fun kv => update_job_kwparams.contains kv.1) then
    .ok (update_job_run db now job_id status
      ((kwargs.lookup "result_url").getD none) ((kwargs.lookup "error").getD none))
  else
    .error (.typeError "update_job() got an unexpected keyword argument")

/-! ### `src/workers/job_worker.py` — `process_job` and `schedule_job` -/

/-- Observable events of one `process_job` run, in program order. -/
inductive WEvent where
  | jobUpdate (job_id status : String) (result_url error : Option String)
  | agentOpen
  | refreshCall
  | fired (status : String) (cart_url error : Option String)
deriving DecidableEq, Repr

structure ChatRow where
  chat_id : Int
  postal_code : String
deriving DecidableEq, Repr

/-- Environment of one `process_job` run: results of the store reads and
the behaviour of each external collaborator.  `runs k` is the outcome of
`agent.build_cart` on pass `k` (1 = headless pass, 2 = pass after the
silent refresh); `lastShot k` is `agent.last_screenshot` after a failed
pass `k`; `refresh_ok` is the result of `refresh_session_headful()`. -/
structure WorkerEnv where
  chat : Option ChatRow
  item_rows : List CartItem
  runs : Nat → Except PyExc BuildResult
  lastShot : Nat → Option String
  refresh_ok : Bool

/-- Output of a `process_job` run: `.ok ()` when the coroutine returned,
`.error e` when exception `e` escaped it; plus the final jobs table and the
event trace. -/
structure ProcOut where
  result : Except PyExc Unit
  db : List JobRow
  events : List WEvent
deriving Repr

/-- The message used for the `needs_user` transition. -/
def needsUserMsg : String := "Walmart needs verification"

/-- Message rendering of a caught exception (`str(exc)`). -/
def pyExcMsg : PyExc → String
  | .botChallenge m => m
  | .typeError m => m
  | .other m => m

/-- The `for attempt in range(1, 3)` loop of `process_job`, over the list
of remaining attempt numbers.  Each iteration opens a `WalmartAgent`
(`agentOpen`), runs `build_cart`, and handles success /
`BotChallengeError` / other exceptions exactly as the source does; a
successful refresh after a first-pass challenge is the `continue`.
Timestamps passed to `update_job` are successive values of `t`. -/
def processLoop (env : WorkerEnv) (job_id : String) :
    List Nat → List JobRow → List WEvent → Nat → ProcOut
  | [], db, evs, _ => ⟨.ok (), db, evs⟩
  | attempt :: restA, db, evs, t =>
    let evs := evs ++ [WEvent.agentOpen]
    match env.runs attempt with
    | .ok result =>
      match call_update_job db t job_id "done" [("result_url", some result.cart_url)] with
      | .error e => ⟨.error e, db, evs⟩
      | .ok db' =>
        ⟨.ok (), db',
          evs ++ [WEvent.jobUpdate job_id "done" (some result.cart_url) none,
                  WEvent.fired "done" (some result.cart_url) none]⟩
    | .error (.botChallenge _) =>
      let screenshot := env.lastShot attempt
      if attempt = 1 then
        let evs := evs ++ [WEvent.refreshCall]
        if env.refresh_ok then
          processLoop env job_id restA db evs t
        else
          match call_update_job db t job_id "needs_user"
              [("error", some needsUserMsg), ("screenshot", screenshot)] with
          | .error e => ⟨.error e, db, evs⟩
          | .ok db' =>
            ⟨.ok (), db',
              evs ++ [WEvent.jobUpdate job_id "needs_user" none (some needsUserMsg),
                      WEvent.fired "needs_user" none (some needsUserMsg)]⟩
      else
        match call_update_job db t job_id "needs_user"
            [("error", some needsUserMsg), ("screenshot", screenshot)] with
        | .error e => ⟨.error e, db, evs⟩
        | .ok db' =>
          ⟨.ok (), db',
            evs ++ [WEvent.jobUpdate job_id "needs_user" none (some needsUserMsg),
                    WEvent.fired "needs_user" none (some needsUserMsg)]⟩
    | .error e =>
      let screenshot := env.lastShot attempt
      match call_update_job db t job_id "failed"
          [("error", some (pyExcMsg e)), ("screenshot", screenshot)] with
      | .error e' => ⟨.error e', db, evs⟩
      | .ok db' =>
        ⟨.ok (), db',
          evs ++ [WEvent.jobUpdate job_id "failed" none (some (pyExcMsg e)),
                  WEvent.fired "failed" none (some (pyExcMsg e))]⟩

/-- `process_job` of `src/workers/job_worker.py`: mark the job `running`,
read the chat and its items, fail immediately on an empty item list
(no browser session), otherwise run the two-pass attempt loop. -/
def process_job (env : WorkerEnv) (job_id : String) (db0 : List JobRow) : ProcOut :=
  match call_update_job db0 0 job_id "running" [] with
  | .error e => ⟨.error e, db0, []⟩
  | .ok db1 =>
    let ev0 := [WEvent.jobUpdate job_id "running" none none]
    if env.item_rows.isEmpty then
      match call_update_job db1 1 job_id "failed" [("error", some "No items in list")] with
      | .error e => ⟨.error e, db1, ev0⟩
      | .ok db2 =>
        ⟨.ok (), db2,
          ev0 ++ [WEvent.jobUpdate job_id "failed" none (some "No items in list"),
                  WEvent.fired "failed" none (some "No items in list")]⟩
    else
      processLoop env job_id [1, 2] db1 ev0 1

/-- State of the scheduler: the `_running` in-memory set and the list of
`asyncio.create_task` calls made so far (by job id, in order). -/
structure SchedState where
  running : List String
  tasks : List String
deriving DecidableEq, Repr

/-- `schedule_job` of `src/workers/job_worker.py`: a no-op when the job id
is already in `_running`, otherwise add it and start a task. -/
def schedule_job (st : SchedState) (jid : String) : SchedState :=
  if jid ∈ st.running then st
  else { running := jid :: st.running, tasks := st.tasks ++ [jid] }

/-- The `finally: _running.discard(jid)` of the task body: the only place a
job id leaves the in-flight set, and it runs when the task finishes. -/
def task_finished (st : SchedState) (jid : String) : SchedState :=
  { st with running := st.running.erase jid }

/-! ## Helper lemmas -/

theorem length_dropWhile_le (p : α → Bool) (l : List α) :
    (l.dropWhile p).length ≤ l.length := by
  induction l with
  | nil => simp
  | cons c t ih =>
    rw [List.dropWhile_cons]
    split
    · exact Nat.le_trans ih (Nat.le_succ _)
    · exact Nat.le_refl _

theorem takeWhile_append_all {p : α → Bool} {l1 : List α} (l2 : List α)
    (h : ∀ c ∈ l1, p c = true) :
    (l1 ++ l2).takeWhile p = l1 ++ l2.takeWhile p := by
  induction l1 with
  | nil => simp
  | cons c t ih =>
    rw [List.cons_append, List.takeWhile_cons_of_pos (h c (by simp)),
      ih (fun c hc => h c (by simp [hc])), List.cons_append]

theorem takeWhile_nil_append {p : α → Bool} {l1 : List α} (l2 : List α)
    (h1 : l1.takeWhile p = []) (h2 : l1 ≠ []) :
    (l1 ++ l2).takeWhile p = [] := by
  cases l1 with
  | nil => exact absurd rfl h2
  | cons c t =>
    rw [List.takeWhile_cons] at h1
    rw [List.cons_append, List.takeWhile_cons]
    split at h1
    · exact absurd h1 (by simp)
    · simp_all

theorem takeWhile_eq_nil_of_dropWhile_eq_self {p : α → Bool} {l : List α}
    (h : l.dropWhile p = l) : l.takeWhile p = [] := by
  cases l with
  | nil => rfl
  | cons c t =>
    rw [List.dropWhile_cons] at h
    split at h
    · have := length_dropWhile_le p t
      rw [h] at this
      simp at this
    · simp_all [List.takeWhile_cons]

theorem head_neg_of_dropWhile_eq_self {p : α → Bool} {c : α} {t : List α}
    (h : (c :: t).dropWhile p = c :: t) : p c = false := by
  rw [List.dropWhile_cons] at h
  split at h
  · have := length_dropWhile_le p t
    rw [h] at this
    simp at this
  · simp_all

theorem dropWhile_eq_self_of_head {p : α → Bool} {c : α} (t : List α)
    (h : p c = false) : (c :: t).dropWhile p = c :: t :=
  List.dropWhile_cons_of_neg (by simp [h])

theorem pyStrip_eq_self {l : List Char}
    (h1 : l.dropWhile isSpace = l)
    (h2 : l.reverse.dropWhile isSpace = l.reverse) : pyStrip l = l := by
  unfold pyStrip
  rw [h1, h2, List.reverse_reverse]

theorem isSpace_eq_false_of_isDigit {c : Char} (h : c.isDigit = true) :
    isSpace c = false := by
  cases hs : isSpace c with
  | false => rfl
  | true =>
    unfold isSpace at hs
    simp only [Bool.or_eq_true, beq_iff_eq] at hs
    rcases hs with ((((rfl | rfl) | rfl) | rfl) | rfl) | rfl <;> simp_all

/-! ## Claim theorems -/

theorem reverse_ne_nil_of_ne_nil {l : List α} (h : l ≠ []) : l.reverse ≠ [] := by
  intro hc
  exact h (by simpa using congrArg List.reverse hc)

theorem exists_cons_of_ne_nil {l : List α} (h : l ≠ []) : ∃ c t, l = c :: t := by
  cases l with
  | nil => exact absurd rfl h
  | cons c t => exact ⟨c, t, rfl⟩

/-- `\s+[xX×](\d+)$` matches `a ++ " x" ++ ds` (for a digit group `ds` and
an `a` without trailing whitespace) with group `ds` and the text before the
match equal to `a`. -/
theorem qtySfxMatch_app (a ds : List Char)
    (hds : ds ≠ []) (hd : ∀ c ∈ ds, c.isDigit = true)
    (ha : a.reverse.takeWhile isSpace = []) :
    qtySfxMatch (a ++ ' ' :: 'x' :: ds) = some (ds, a) := by
  obtain ⟨d0, e0, hd0⟩ := exists_cons_of_ne_nil (reverse_ne_nil_of_ne_nil hds)
  have hrev : (a ++ ' ' :: 'x' :: ds).reverse = ds.reverse ++ 'x' :: ' ' :: a.reverse := by
    simp
  have htw : (ds.reverse ++ 'x' :: ' ' :: a.reverse).takeWhile Char.isDigit
      = ds.reverse := by
    rw [takeWhile_append_all _ (fun c hc => hd c (List.mem_reverse.mp hc)),
      List.takeWhile_cons_of_neg (by decide)]
    simp
  have hne : (ds.reverse.isEmpty = true) = False := by
    rw [hd0]; simp
  simp only [qtySfxMatch]
  rw [hrev, htw, List.drop_left]
  simp only [hne, if_false]
  simp only [show isQtyX 'x' = true from rfl, if_true,
    List.takeWhile_cons_of_pos (show isSpace ' ' = true from rfl), ha]
  simp

/-- `\s+[xX×](\d+)$` fails on any string not ending in a digit. -/
theorem qtySfxMatch_none_no_digit (s : List Char)
    (h : s.reverse.takeWhile Char.isDigit = []) : qtySfxMatch s = none := by
  simp only [qtySfxMatch]
  rw [h]
  rfl

/-- `\s+[xX×](\d+)$` fails on `a ++ " " ++ ds`: the character before the
terminal digit run is a space, not an `x`. -/
theorem qtySfxMatch_none_bare (a ds : List Char)
    (hds : ds ≠ []) (hd : ∀ c ∈ ds, c.isDigit = true) :
    qtySfxMatch (a ++ ' ' :: ds) = none := by
  obtain ⟨d0, e0, hd0⟩ := exists_cons_of_ne_nil (reverse_ne_nil_of_ne_nil hds)
  have hrev : (a ++ ' ' :: ds).reverse = ds.reverse ++ ' ' :: a.reverse := by
    simp
  have htw : (ds.reverse ++ ' ' :: a.reverse).takeWhile Char.isDigit
      = ds.reverse := by
    rw [takeWhile_append_all _ (fun c hc => hd c (List.mem_reverse.mp hc)),
      List.takeWhile_cons_of_neg (by decide)]
    simp
  have hne : (ds.reverse.isEmpty = true) = False := by
    rw [hd0]; simp
  simp only [qtySfxMatch]
  rw [hrev, htw, List.drop_left]
  simp only [hne, if_false]
  simp [show isQtyX ' ' = false from rfl]

/-- `^(\d+)\s*[xX×]\s+(.+)$` matches `ds ++ "x " ++ a` (digit group `ds`,
newline-free nonempty `a` without leading whitespace) with groups
`(ds, a)`. -/
theorem qtyPfxMatch_app (ds a : List Char)
    (hds : ds ≠ []) (hd : ∀ c ∈ ds, c.isDigit = true)
    (ha1 : a.takeWhile isSpace = []) (ha2 : a ≠ [])
    (ha3 : a.contains '\n' = false) :
    qtyPfxMatch (ds ++ 'x' :: ' ' :: a) = some (ds, a) := by
  obtain ⟨c0, t0, hc0⟩ := exists_cons_of_ne_nil hds
  have htw : (ds ++ 'x' :: ' ' :: a).takeWhile Char.isDigit = ds := by
    rw [takeWhile_append_all _ hd, List.takeWhile_cons_of_neg (by decide)]
    simp
  have hne : (ds.isEmpty = true) = False := by
    rw [hc0]; simp
  have hae : (a.isEmpty = true) = False := by
    obtain ⟨b0, u0, hb0⟩ := exists_cons_of_ne_nil ha2
    rw [hb0]; simp
  simp only [qtyPfxMatch]
  rw [htw, List.drop_left]
  simp only [hne, if_false]
  rw [dropWhile_eq_self_of_head _ (show isSpace 'x' = false from rfl)]
  simp only [show isQtyX 'x' = true from rfl, if_true,
    List.takeWhile_cons_of_pos (show isSpace ' ' = true from rfl), ha1]
  have ha3' : '\n' ∉ a := by simpa using ha3
  simp [hae, ha3']

/-- `^(\d+)\s*[xX×]\s+(.+)$` fails on any string not starting with a
digit. -/
theorem qtyPfxMatch_none_no_digit (s : List Char)
    (h : s.takeWhile Char.isDigit = []) : qtyPfxMatch s = none := by
  simp only [qtyPfxMatch]
  rw [h]
  rfl

/-- `\s+(\d+)$` matches `a ++ " " ++ ds` (digit group `ds`, `a` without
trailing whitespace) with group `ds` and the text before the match equal
to `a`. -/
theorem qtyBareMatch_app (a ds : List Char)
    (hds : ds ≠ []) (hd : ∀ c ∈ ds, c.isDigit = true)
    (ha : a.reverse.takeWhile isSpace = []) :
    qtyBareMatch (a ++ ' ' :: ds) = some (ds, a) := by
  obtain ⟨d0, e0, hd0⟩ := exists_cons_of_ne_nil (reverse_ne_nil_of_ne_nil hds)
  have hrev : (a ++ ' ' :: ds).reverse = ds.reverse ++ ' ' :: a.reverse := by
    simp
  have htw : (ds.reverse ++ ' ' :: a.reverse).takeWhile Char.isDigit
      = ds.reverse := by
    rw [takeWhile_append_all _ (fun c hc => hd c (List.mem_reverse.mp hc)),
      List.takeWhile_cons_of_neg (by decide)]
    simp
  have hne : (ds.reverse.isEmpty = true) = False := by
    rw [hd0]; simp
  simp only [qtyBareMatch]
  rw [hrev, htw, List.drop_left]
  simp only [hne, if_false]
  simp only [List.takeWhile_cons_of_pos (show isSpace ' ' = true from rfl), ha]
  have hdrop : (ds.reverse ++ ' ' :: a.reverse).drop (ds.reverse.length + [' '].length)
      = a.reverse := by
    rw [← List.drop_drop, List.drop_left]
    simp
  simp only [List.isEmpty_cons, Bool.false_eq_true, if_false, hdrop]
  simp

/-- Form `"<name> x<N>"`: the trailing-`x` suffix is read, with top
priority (no assumption at all is made about the shape of the name beyond
it being stripped, normalization-invariant, and free of price/brand
phrases — in particular it may itself start with `<N>x`). -/
theorem c6_sfx_case (nm : String) (ds : List Char) (n : Nat)
    (hp : priceSearch (nm ++ " x" ++ (⟨ds⟩ : String)).data = none)
    (hb : brandSearch (nm ++ " x" ++ (⟨ds⟩ : String)).data = none)
    (hA : nm.data.dropWhile isSpace = nm.data)
    (hB : nm.data.reverse.dropWhile isSpace = nm.data.reverse)
    (hN : normName nm.data = nm.data)
    (hnm : nm.data ≠ [])
    (hds : ds ≠ []) (hd : ∀ c ∈ ds, c.isDigit = true)
    (hval : digitsToNat ds = n) (hn : 1 ≤ n) :
    parse_item (nm ++ " x" ++ ⟨ds⟩) = some (Parsed.mk nm n none none) := by
  obtain ⟨c0, t0, hc0⟩ := exists_cons_of_ne_nil hnm
  obtain ⟨d0, e0, hd0⟩ := exists_cons_of_ne_nil (reverse_ne_nil_of_ne_nil hds)
  have hdata : (nm ++ " x" ++ (⟨ds⟩ : String)).data = nm.data ++ ' ' :: 'x' :: ds := by
    rw [String.data_append, String.data_append, List.append_assoc]
    rfl
  have hp' : priceSearch (nm.data ++ ' ' :: 'x' :: ds) = none := by
    rw [← hdata]; exact hp
  have hb' : brandSearch (nm.data ++ ' ' :: 'x' :: ds) = none := by
    rw [← hdata]; exact hb
  have hstrip : pyStrip (nm.data ++ ' ' :: 'x' :: ds) = nm.data ++ ' ' :: 'x' :: ds := by
    apply pyStrip_eq_self
    · rw [hc0, List.cons_append]
      exact dropWhile_eq_self_of_head _ (head_neg_of_dropWhile_eq_self (hc0 ▸ hA))
    · have hrev : (nm.data ++ ' ' :: 'x' :: ds).reverse
          = ds.reverse ++ 'x' :: ' ' :: nm.data.reverse := by simp
      rw [hrev, hd0, List.cons_append]
      refine dropWhile_eq_self_of_head _ (isSpace_eq_false_of_isDigit (hd d0 ?_))
      exact List.mem_reverse.mp (hd0 ▸ List.mem_cons_self d0 e0)
  have hsp : stepPrice (nm.data ++ ' ' :: 'x' :: ds)
      = some (none, nm.data ++ ' ' :: 'x' :: ds) := by
    simp only [stepPrice]
    rw [hp']
  have hsb : stepBrand (nm.data ++ ' ' :: 'x' :: ds)
      = (none, nm.data ++ ' ' :: 'x' :: ds) := by
    simp only [stepBrand]
    rw [hb']
  have hq : stepQty (nm.data ++ ' ' :: 'x' :: ds) = (n, nm.data) := by
    simp only [stepQty]
    rw [qtySfxMatch_app nm.data ds hds hd (takeWhile_eq_nil_of_dropWhile_eq_self hB)]
    dsimp only
    rw [pyStrip_eq_self hA hB, hval]
  simp only [parse_item, hdata, hstrip, hsp, hsb, hq, hN, Nat.max_eq_right hn]

/-- Form `"<N>x <name>"`: when the string does not end in a digit (so the
suffix pattern cannot fire), the leading-`x` quantity is read. -/
theorem c6_pfx_case (nm : String) (ds : List Char) (n : Nat)
    (hp : priceSearch ((⟨ds⟩ : String) ++ "x " ++ nm).data = none)
    (hb : brandSearch ((⟨ds⟩ : String) ++ "x " ++ nm).data = none)
    (hA : nm.data.dropWhile isSpace = nm.data)
    (hB : nm.data.reverse.dropWhile isSpace = nm.data.reverse)
    (hN : normName nm.data = nm.data)
    (hnm : nm.data ≠ [])
    (hndig : nm.data.reverse.takeWhile Char.isDigit = [])
    (hnl : nm.data.contains '\n' = false)
    (hds : ds ≠ []) (hd : ∀ c ∈ ds, c.isDigit = true)
    (hval : digitsToNat ds = n) (hn : 1 ≤ n) :
    parse_item ((⟨ds⟩ : String) ++ "x " ++ nm) = some (Parsed.mk nm n none none) := by
  obtain ⟨c0, t0, hc0⟩ := exists_cons_of_ne_nil hds
  obtain ⟨b0, u0, hb0⟩ := exists_cons_of_ne_nil (reverse_ne_nil_of_ne_nil hnm)
  have hdata : ((⟨ds⟩ : String) ++ "x " ++ nm).data = ds ++ 'x' :: ' ' :: nm.data := by
    rw [String.data_append, String.data_append, List.append_assoc]
    rfl
  have hp' : priceSearch (ds ++ 'x' :: ' ' :: nm.data) = none := by
    rw [← hdata]; exact hp
  have hb' : brandSearch (ds ++ 'x' :: ' ' :: nm.data) = none := by
    rw [← hdata]; exact hb
  have hrev : (ds ++ 'x' :: ' ' :: nm.data).reverse
      = nm.data.reverse ++ ' ' :: 'x' :: ds.reverse := by simp
  have hstrip : pyStrip (ds ++ 'x' :: ' ' :: nm.data) = ds ++ 'x' :: ' ' :: nm.data := by
    apply pyStrip_eq_self
    · rw [hc0, List.cons_append]
      exact dropWhile_eq_self_of_head _
        (isSpace_eq_false_of_isDigit (hd c0 (hc0 ▸ List.mem_cons_self c0 t0)))
    · rw [hrev, hb0, List.cons_append]
      exact dropWhile_eq_self_of_head _ (head_neg_of_dropWhile_eq_self (hb0 ▸ hB))
  have hsp : stepPrice (ds ++ 'x' :: ' ' :: nm.data)
      = some (none, ds ++ 'x' :: ' ' :: nm.data) := by
    simp only [stepPrice]
    rw [hp']
  have hsb : stepBrand (ds ++ 'x' :: ' ' :: nm.data)
      = (none, ds ++ 'x' :: ' ' :: nm.data) := by
    simp only [stepBrand]
    rw [hb']
  have hsfxnone : qtySfxMatch (ds ++ 'x' :: ' ' :: nm.data) = none := by
    apply qtySfxMatch_none_no_digit
    rw [hrev]
    exact takeWhile_nil_append _ hndig (reverse_ne_nil_of_ne_nil hnm)
  have hq : stepQty (ds ++ 'x' :: ' ' :: nm.data) = (n, nm.data) := by
    simp only [stepQty]
    rw [hsfxnone,
      qtyPfxMatch_app ds nm.data hds hd
        (takeWhile_eq_nil_of_dropWhile_eq_self hA) hnm hnl]
    dsimp only
    rw [pyStrip_eq_self hA hB, hval]
  simp only [parse_item, hdata, hstrip, hsp, hsb, hq, hN, Nat.max_eq_right hn]

/-- Form `"<name> <N>"`: when neither `x`-pattern can fire and the
word before the integer is not recognized as a unit descriptor, the bare
trailing integer is read as the quantity. -/
theorem c6_bare_case (nm : String) (ds : List Char) (n : Nat)
    (hp : priceSearch (nm ++ " " ++ (⟨ds⟩ : String)).data = none)
    (hb : brandSearch (nm ++ " " ++ (⟨ds⟩ : String)).data = none)
    (hA : nm.data.dropWhile isSpace = nm.data)
    (hB : nm.data.reverse.dropWhile isSpace = nm.data.reverse)
    (hN : normName nm.data = nm.data)
    (hnm : nm.data ≠ [])
    (htdig : nm.data.takeWhile Char.isDigit = [])
    (hunit : UNIT_WORDS.contains (⟨lastWordNorm nm.data⟩ : String) = false)
    (hds : ds ≠ []) (hd : ∀ c ∈ ds, c.isDigit = true)
    (hval : digitsToNat ds = n) (hn : 1 ≤ n) :
    parse_item (nm ++ " " ++ ⟨ds⟩) = some (Parsed.mk nm n none none) := by
  obtain ⟨c0, t0, hc0⟩ := exists_cons_of_ne_nil hnm
  obtain ⟨d0, e0, hd0⟩ := exists_cons_of_ne_nil (reverse_ne_nil_of_ne_nil hds)
  have hdata : (nm ++ " " ++ (⟨ds⟩ : String)).data = nm.data ++ ' ' :: ds := by
    rw [String.data_append, String.data_append, List.append_assoc]
    rfl
  have hp' : priceSearch (nm.data ++ ' ' :: ds) = none := by
    rw [← hdata]; exact hp
  have hb' : brandSearch (nm.data ++ ' ' :: ds) = none := by
    rw [← hdata]; exact hb
  have hstrip : pyStrip (nm.data ++ ' ' :: ds) = nm.data ++ ' ' :: ds := by
    apply pyStrip_eq_self
    · rw [hc0, List.cons_append]
      exact dropWhile_eq_self_of_head _ (head_neg_of_dropWhile_eq_self (hc0 ▸ hA))
    · have hrev : (nm.data ++ ' ' :: ds).reverse
          = ds.reverse ++ ' ' :: nm.data.reverse := by simp
      rw [hrev, hd0, List.cons_append]
      refine dropWhile_eq_self_of_head _ (isSpace_eq_false_of_isDigit (hd d0 ?_))
      exact List.mem_reverse.mp (hd0 ▸ List.mem_cons_self d0 e0)
  have hsp : stepPrice (nm.data ++ ' ' :: ds) = some (none, nm.data ++ ' ' :: ds) := by
    simp only [stepPrice]
    rw [hp']
  have hsb : stepBrand (nm.data ++ ' ' :: ds) = (none, nm.data ++ ' ' :: ds) := by
    simp only [stepBrand]
    rw [hb']
  have hpfxnone : qtyPfxMatch (nm.data ++ ' ' :: ds) = none := by
    apply qtyPfxMatch_none_no_digit
    exact takeWhile_nil_append _ htdig hnm
  have hq : stepQty (nm.data ++ ' ' :: ds) = (n, nm.data) := by
    simp only [stepQty]
    rw [qtySfxMatch_none_bare nm.data ds hds hd, hpfxnone,
      qtyBareMatch_app nm.data ds hds hd (takeWhile_eq_nil_of_dropWhile_eq_self hB)]
    dsimp only
    rw [pyStrip_eq_self hA hB, hunit, hval]
    simp
  simp only [parse_item, hdata, hstrip, hsp, hsb, hq, hN, Nat.max_eq_right hn]

/-- **C6.** For every item text of one of the forms `"<N>x <name>"`,
`"<name> x<N>"` and `"<name> <N>"` — with a normalized name free of
price/brand phrases, and, for the bare form, a preceding token the parser
does not recognize as a unit descriptor — `parse_item` returns quantity
`N` and a name excluding the quantity token; the priority order is
trailing-`x` suffix (unconditional, so it beats any prefix reading), then
leading-`x` prefix (given the suffix cannot fire), then bare trailing
integer (given neither `x`-form fires). -/
theorem parse_item_quantity_forms :
    (∀ (nm : String) (ds : List Char) (n : Nat),
      priceSearch (nm ++ " x" ++ (⟨ds⟩ : String)).data = none →
      brandSearch (nm ++ " x" ++ (⟨ds⟩ : String)).data = none →
      nm.data.dropWhile isSpace = nm.data →
      nm.data.reverse.dropWhile isSpace = nm.data.reverse →
      normName nm.data = nm.data →
      nm.data ≠ [] →
      ds ≠ [] → (∀ c ∈ ds, c.isDigit = true) →
      digitsToNat ds = n → 1 ≤ n →
      parse_item (nm ++ " x" ++ ⟨ds⟩) = some (Parsed.mk nm n none none)) ∧
    (∀ (nm : String) (ds : List Char) (n : Nat),
      priceSearch ((⟨ds⟩ : String) ++ "x " ++ nm).data = none →
      brandSearch ((⟨ds⟩ : String) ++ "x " ++ nm).data = none →
      nm.data.dropWhile isSpace = nm.data →
      nm.data.reverse.dropWhile isSpace = nm.data.reverse →
      normName nm.data = nm.data →
      nm.data ≠ [] →
      nm.data.reverse.takeWhile Char.isDigit = [] →
      nm.data.contains '\n' = false →
      ds ≠ [] → (∀ c ∈ ds, c.isDigit = true) →
      digitsToNat ds = n → 1 ≤ n →
      parse_item ((⟨ds⟩ : String) ++ "x " ++ nm) = some (Parsed.mk nm n none none)) ∧
    (∀ (nm : String) (ds : List Char) (n : Nat),
      priceSearch (nm ++ " " ++ (⟨ds⟩ : String)).data = none →
      brandSearch (nm ++ " " ++ (⟨ds⟩ : String)).data = none →
      nm.data.dropWhile isSpace = nm.data →
      nm.data.reverse.dropWhile isSpace = nm.data.reverse →
      normName nm.data = nm.data →
      nm.data ≠ [] →
      nm.data.takeWhile Char.isDigit = [] →
      UNIT_WORDS.contains (⟨lastWordNorm nm.data⟩ : String) = false →
      ds ≠ [] → (∀ c ∈ ds, c.isDigit = true) →
      digitsToNat ds = n → 1 ≤ n →
      parse_item (nm ++ " " ++ ⟨ds⟩) = some (Parsed.mk nm n none none)) :=
  ⟨fun nm ds n hp hb hA hB hN hnm hds hd hval hn =>
      c6_sfx_case nm ds n hp hb hA hB hN hnm hds hd hval hn,
   fun nm ds n hp hb hA hB hN hnm hndig hnl hds hd hval hn =>
      c6_pfx_case nm ds n hp hb hA hB hN hnm hndig hnl hds hd hval hn,
   fun nm ds n hp hb hA hB hN hnm htdig hunit hds hd hval hn =>
      c6_bare_case nm ds n hp hb hA hB hN hnm htdig hunit hds hd hval hn⟩

/-- Witness for `parse_item_quantity_forms`: the three forms at concrete
inputs `"bread x2"`, `"2x bread"` and `"milk 3"`. -/
theorem parse_item_quantity_forms_witness :
    parse_item ("bread" ++ " x" ++ (⟨['2']⟩ : String))
      = some (Parsed.mk "bread" 2 none none) ∧
    parse_item ((⟨['2']⟩ : String) ++ "x " ++ "bread")
      = some (Parsed.mk "bread" 2 none none) ∧
    parse_item ("milk" ++ " " ++ (⟨['3']⟩ : String))
      = some (Parsed.mk "milk" 3 none none) :=
  ⟨parse_item_quantity_forms.1 "bread" ['2'] 2 (by decide) (by decide) (by decide)
      (by decide) (by decide) (by decide) (by decide) (by decide) (by decide)
      (by decide),
   parse_item_quantity_forms.2.1 "bread" ['2'] 2 (by decide) (by decide) (by decide)
      (by decide) (by decide) (by decide) (by decide) (by decide) (by decide)
      (by decide) (by decide) (by decide),
   parse_item_quantity_forms.2.2 "milk" ['3'] 3 (by decide) (by decide) (by decide)
      (by decide) (by decide) (by decide) (by decide) (by decide) (by decide)
      (by decide) (by decide) (by decide)⟩

/-- **C8.** For every input string on which `parse_item` returns (it raises
only when a malformed price group defeats `float`), the returned quantity
is at least 1: the final quantity is always clamped by `max(1, qty)`, so
zero or negative literals can never produce a quantity below 1. -/
theorem parse_item_qty_ge_one (raw : String) (p : Parsed)
    (h : parse_item raw = some p) : 1 ≤ p.qty := by
  cases hsp : stepPrice (pyStrip raw.data) with
  | none => simp [parse_item, hsp] at h
  | some pr =>
    obtain ⟨mp, s1⟩ := pr
    simp only [parse_item, hsp, Option.some.injEq] at h
    subst h
    exact Nat.le_max_left 1 _

/-- Witness for `parse_item_qty_ge_one`: the input `"bread 0"` contains the
zero literal, parses, and its quantity is clamped to 1. -/
theorem parse_item_qty_ge_one_witness :
    1 ≤ (Parsed.mk "bread" 1 none none).qty :=
  parse_item_qty_ge_one "bread 0" (Parsed.mk "bread" 1 none none) (by decide)

/-- **C7.** The claim asserts quantity 1 whenever a word of `_UNIT_WORDS`
precedes a trailing integer, but the code first lowercases the word and
strips its trailing `s` characters before the set lookup, which turns
`"pcs"` into `"pc"` — a string not in the set.  So the set entry `"pcs"`
can never match, and `"screws pcs 5"` parses with quantity 5 and name
`"screws pcs"`: the code contradicts its own `_UNIT_WORDS` table. -/
theorem parse_item_pcs_unit_word_broken :
    parse_item "screws pcs 5" =
      some (Parsed.mk "screws pcs" 5 none none) ∧
    "pcs" ∈ UNIT_WORDS ∧
    (⟨rstripS "pcs".data⟩ : String) ∉ UNIT_WORDS := by
  refine ⟨by decide, by decide, by decide⟩

/-- **C5, counterexample.**  On a candidate list whose only brand-matching
product (index 1: under no ceiling, best-seller badge, unsponsored) is what
the §4.2 rule-based policy selects, a failed AI call makes the code return
no-match instead: no rule-based fallback selection exists in
`search_and_add` — after a `None` from `_ai_select_product` it proceeds to
its generic page-level fallbacks, never re-examining the candidate list. -/
theorem ai_select_no_rule_fallback :
    ai_select_product
      [Product.mk "generic noodles" "" (some 2) [] "u0" false,
       Product.mk "Acme noodles" "Acme" (some 3) ["Best Seller"] "u1" false]
      none = none ∧
    spec_rule_based_select
      [Product.mk "generic noodles" "" (some 2) [] "u0" false,
       Product.mk "Acme noodles" "Acme" (some 3) ["Best Seller"] "u1" false]
      (some "acme") none = some 1 ∧
    ai_select_product
      [Product.mk "generic noodles" "" (some 2) [] "u0" false,
       Product.mk "Acme noodles" "Acme" (some 3) ["Best Seller"] "u1" false]
      none ≠
    spec_rule_based_select
      [Product.mk "generic noodles" "" (some 2) [] "u0" false,
       Product.mk "Acme noodles" "Acme" (some 3) ["Best Seller"] "u1" false]
      (some "acme") none := by
  refine ⟨by decide, by decide, by decide⟩

/-- **C5, amended.**  When the AI call fails or its answer is out of range,
`_ai_select_product` returns no-match (`None`); no rule-based selection is
applied to the candidate list (the caller then falls through to the
page-level add-to-cart and first-product-link fallbacks). -/
theorem ai_select_fail_is_no_match (products : List Product) (aiResp : Option Int)
    (h : aiResp = none ∨
      ∃ i, aiResp = some i ∧ (i < 0 ∨ (products.length : Int) ≤ i)) :
    ai_select_product products aiResp = none := by
  unfold ai_select_product
  rcases h with rfl | ⟨i, rfl, hi⟩
  · split <;> rfl
  · split
    · rfl
    · show (if 0 ≤ i ∧ i < (products.length : Int) then some i.toNat else none) = none
      rw [if_neg (by rcases hi with h | h <;> omega)]

/-- Witness for `ai_select_fail_is_no_match`: an in-bounds list with an
out-of-range AI answer. -/
theorem ai_select_fail_is_no_match_witness :
    ai_select_product [Product.mk "a" "" none [] "" false] (some 5) = none :=
  ai_select_fail_is_no_match [Product.mk "a" "" none [] "" false] (some 5)
    (Or.inr ⟨5, rfl, Or.inr (by decide)⟩)

/-- **C9.**  The in-flight set makes dispatch idempotent: a `schedule_job`
on an id already in `_running` is a no-op (no task is created), a repeated
dispatch is absorbed entirely, a fresh dispatch creates exactly one task,
`schedule_job` never removes anything from the set, and only the task's
`finally` (`task_finished`) removes the id. -/
theorem schedule_job_exactly_once :
    (∀ (st : SchedState) (jid : String),
      jid ∈ st.running → schedule_job st jid = st) ∧
    (∀ (st : SchedState) (jid : String),
      schedule_job (schedule_job st jid) jid = schedule_job st jid) ∧
    (∀ (st : SchedState) (jid : String), jid ∉ st.running →
      (schedule_job st jid).tasks.count jid = st.tasks.count jid + 1) ∧
    (∀ (st : SchedState) (jid j : String),
      j ∈ st.running → j ∈ (schedule_job st jid).running) ∧
    (∀ (st : SchedState) (jid : String),
      (task_finished st jid).running = st.running.erase jid) := by
  refine ⟨?_, ?_, ?_, ?_, ?_⟩
  · intro st jid h
    simp [schedule_job, h]
  · intro st jid
    by_cases h : jid ∈ st.running
    · simp [schedule_job, h]
    · simp [schedule_job, h]
  · intro st jid h
    simp [schedule_job, h]
  · intro st jid j h
    unfold schedule_job
    split
    · exact h
    · exact List.mem_cons_of_mem _ h
  · intro st jid
    rfl

/-- Witness for `schedule_job_exactly_once`: a duplicate dispatch of `"j1"`
while it is in flight changes nothing, and a fresh dispatch counts one
task. -/
theorem schedule_job_exactly_once_witness :
    schedule_job (SchedState.mk ["j1"] ["j1"]) "j1" = SchedState.mk ["j1"] ["j1"] ∧
    (schedule_job (SchedState.mk [] []) "j1").tasks.count "j1"
      = (SchedState.mk [] []).tasks.count "j1" + 1 ∧
    "j1" ∈ (schedule_job (SchedState.mk ["j1"] ["j1"]) "j2").running :=
  ⟨schedule_job_exactly_once.1 (SchedState.mk ["j1"] ["j1"]) "j1" (by decide),
   schedule_job_exactly_once.2.2.1 (SchedState.mk [] []) "j1" (by decide),
   schedule_job_exactly_once.2.2.2.1 (SchedState.mk ["j1"] ["j1"]) "j2" "j1" (by decide)⟩

/-- **C10.**  `update_job` overwrites `status`, `result_url` and `error`
of every row whose `job_id` matches (with `result_url`/`error` defaulting
to `None` when the keyword is omitted, as on the dispatch-time
`update_job(job_id, "running")` call), refreshes `updated_at`, and leaves
`job_id`, `chat_id`, `created_at` and all non-matching rows untouched. -/
theorem update_job_overwrites_and_frames :
    (∀ (db : List JobRow) (now : Nat) (job_id status : String)
        (ru er : Option String), ∀ r ∈ db,
      ∃ r' ∈ update_job_run db now job_id status ru er,
        r'.job_id = r.job_id ∧ r'.chat_id = r.chat_id ∧
        r'.created_at = r.created_at ∧
        (r.job_id = job_id →
          r'.status = status ∧ r'.result_url = ru ∧ r'.error = er ∧
          r'.updated_at = now) ∧
        (r.job_id ≠ job_id → r' = r)) ∧
    (∀ (db : List JobRow) (now : Nat) (job_id status : String),
      call_update_job db now job_id status []
        = .ok (update_job_run db now job_id status none none)) := by
  constructor
  · intro db now job_id status ru er r hr
    refine ⟨(fun r => if r.job_id = job_id then
        { r with status := status, result_url := ru, error := er,
                 updated_at := now } else r) r,
      List.mem_map_of_mem _ hr, ?_⟩
    by_cases h : r.job_id = job_id
    · simp [h]
    · simp [h]
  · intro db now job_id status
    rfl

/-- A no-challenge body stream can never make the retry wrapper raise:
`search_and_add` converts every non-challenge exception into `False`. -/
theorem sawrGo_ok_of_no_challenge (bodies : Nat → BodyOutcome)
    (hnc : ∀ a m, bodies a ≠ .challenge m) :
    ∀ (fuel attempt : Nat), ∃ b, (sawrGo bodies attempt fuel).1 = .ok b := by
  intro fuel
  induction fuel with
  | zero => exact fun _ => ⟨false, rfl⟩
  | succ f ih =>
    intro attempt
    cases hb : bodies attempt with
    | ret ok =>
      cases ok
      · simpa [sawrGo, search_and_add, hb] using ih (attempt + 1)
      · exact ⟨true, by simp [sawrGo, search_and_add, hb]⟩
    | challenge m => exact absurd hb (hnc attempt m)
    | exc s => simpa [sawrGo, search_and_add, hb] using ih (attempt + 1)

/-- The retry wrapper consumes at most `fuel` attempts. -/
theorem sawrGo_count_le (bodies : Nat → BodyOutcome) :
    ∀ (fuel attempt : Nat), (sawrGo bodies attempt fuel).2 ≤ fuel := by
  intro fuel
  induction fuel with
  | zero => intro _; simp [sawrGo]
  | succ f ih =>
    intro attempt
    cases hb : bodies attempt with
    | ret ok =>
      cases ok
      · simpa [sawrGo, search_and_add, hb] using ih (attempt + 1)
      · simp [sawrGo, search_and_add, hb]
    | challenge m => simp [sawrGo, search_and_add, hb]
    | exc s => simpa [sawrGo, search_and_add, hb] using ih (attempt + 1)

/-- An item whose three attempts all fail (non-challenge) exhausts the
budget and yields `False`. -/
theorem sawr_allfail (bodies : Nat → BodyOutcome)
    (h1 : bodies 1 = .ret false ∨ ∃ s, bodies 1 = .exc s)
    (h2 : bodies 2 = .ret false ∨ ∃ s, bodies 2 = .exc s)
    (h3 : bodies 3 = .ret false ∨ ∃ s, bodies 3 = .exc s) :
    search_and_add_with_retry bodies 3 = (.ok false, 3) := by
  rcases h1 with h1 | ⟨s1, h1⟩ <;> rcases h2 with h2 | ⟨s2, h2⟩ <;>
    rcases h3 with h3 | ⟨s3, h3⟩ <;>
    simp [search_and_add_with_retry, sawrGo, search_and_add, h1, h2, h3]

/-- The per-item loop of `build_cart` under a no-challenge environment:
it returns, previously recorded failures persist, and every item whose
three attempts all fail lands in the failed list. -/
theorem buildLoop_no_challenge (bodies : Nat → Nat → BodyOutcome)
    (items : List CartItem) :
    ∀ (idx : Nat) (added failed : List String),
    (∀ i a m, bodies i a ≠ .challenge m) →
    ∃ p, buildLoop bodies items idx added failed = .ok p ∧
      (∀ x ∈ failed, x ∈ p.2) ∧
      (∀ (k : Nat) (hk : k < items.length),
        (∀ a, 1 ≤ a → a ≤ 3 →
          (bodies (idx + k) a = .ret false ∨ ∃ s, bodies (idx + k) a = .exc s)) →
        itemLabel (items.get ⟨k, hk⟩) ∈ p.2) := by
  induction items with
  | nil =>
    intro idx added failed _
    exact ⟨(added, failed), rfl, fun x hx => hx, fun k hk => absurd hk (by simp)⟩
  | cons it rest ih =>
    intro idx added failed hnc
    obtain ⟨b, hb⟩ := sawrGo_ok_of_no_challenge (bodies idx)
      (fun a m => hnc idx a m) 3 1
    cases b with
    | true =>
      obtain ⟨p, hp, hsub, hmem⟩ := ih (idx + 1) (added ++ [itemLabel it]) failed hnc
      refine ⟨p, ?_, hsub, ?_⟩
      · simpa [buildLoop, search_and_add_with_retry, hb] using hp
      · intro k hk hall
        cases k with
        | zero =>
          exfalso
          have hfail := sawr_allfail (bodies idx)
            (by simpa using hall 1 (by omega) (by omega))
            (by simpa using hall 2 (by omega) (by omega))
            (by simpa using hall 3 (by omega) (by omega))
          have : (sawrGo (bodies idx) 1 3).1 = .ok false := by
            rw [show sawrGo (bodies idx) 1 3
                = search_and_add_with_retry (bodies idx) 3 from rfl, hfail]
          rw [hb] at this
          simp at this
        | succ k' =>
          have hall' : ∀ a, 1 ≤ a → a ≤ 3 →
              (bodies (idx + 1 + k') a = .ret false ∨
                ∃ s, bodies (idx + 1 + k') a = .exc s) := by
            intro a ha1 ha2
            have := hall a ha1 ha2
            rwa [show idx + (k' + 1) = idx + 1 + k' by omega] at this
          have := hmem k' (by simpa using Nat.lt_of_succ_lt_succ (by simpa using hk)) hall'
          simpa using this
    | false =>
      obtain ⟨p, hp, hsub, hmem⟩ := ih (idx + 1) added (failed ++ [itemLabel it]) hnc
      refine ⟨p, ?_, fun x hx => hsub x (List.mem_append_left _ hx), ?_⟩
      · simpa [buildLoop, search_and_add_with_retry, hb] using hp
      · intro k hk hall
        cases k with
        | zero =>
          exact hsub (itemLabel it)
            (List.mem_append_right _ (List.mem_singleton.mpr rfl))
        | succ k' =>
          have hall' : ∀ a, 1 ≤ a → a ≤ 3 →
              (bodies (idx + 1 + k') a = .ret false ∨
                ∃ s, bodies (idx + 1 + k') a = .exc s) := by
            intro a ha1 ha2
            have := hall a ha1 ha2
            rwa [show idx + (k' + 1) = idx + 1 + k' by omega] at this
          have := hmem k' (by simpa using Nat.lt_of_succ_lt_succ (by simpa using hk)) hall'
          simpa using this

/-- **C3.**  A `BotChallengeError` is never caught or retried by the
per-item wrapper: if the first `j - 1` attempts fail without a challenge
and attempt `j` raises one, `search_and_add_with_retry` propagates the
challenge after exactly `j` calls; a stream of non-challenge exceptions is
instead retried up to the full 3-attempt budget and returns `False`; and a
propagated challenge aborts `build_cart`'s item loop at the raising item,
whatever the remaining items are. -/
theorem challenge_never_retried :
    (∀ (bodies : Nat → BodyOutcome) (j : Nat) (m : String),
      1 ≤ j → j ≤ 3 →
      (∀ a, 1 ≤ a → a < j →
        (bodies a = .ret false ∨ ∃ s, bodies a = .exc s)) →
      bodies j = .challenge m →
      search_and_add_with_retry bodies 3 = (.error (.botChallenge m), j)) ∧
    (∀ (bodies : Nat → BodyOutcome) (m1 m2 m3 : String),
      bodies 1 = .exc m1 → bodies 2 = .exc m2 → bodies 3 = .exc m3 →
      search_and_add_with_retry bodies 3 = (.ok false, 3)) ∧
    (∀ (bodies : Nat → Nat → BodyOutcome) (idx : Nat) (it : CartItem)
        (rest : List CartItem) (added failed : List String) (e : PyExc),
      (search_and_add_with_retry (bodies idx) 3).1 = .error e →
      buildLoop bodies (it :: rest) idx added failed = .error e) := by
  refine ⟨?_, ?_, ?_⟩
  · intro bodies j m hj1 hj3 hpre hj
    interval_cases j
    · simp [search_and_add_with_retry, sawrGo, search_and_add, hj]
    · rcases hpre 1 (by omega) (by omega) with h | ⟨s, h⟩ <;>
        simp [search_and_add_with_retry, sawrGo, search_and_add, h, hj]
    · rcases hpre 1 (by omega) (by omega) with ha | ⟨s, ha⟩ <;>
        rcases hpre 2 (by omega) (by omega) with hc | ⟨t, hc⟩ <;>
        simp [search_and_add_with_retry, sawrGo, search_and_add, ha, hc, hj]
  · intro bodies m1 m2 m3 h1 h2 h3
    simp [search_and_add_with_retry, sawrGo, search_and_add, h1, h2, h3]
  · intro bodies idx it rest added failed e h
    simp [buildLoop, h]

/-- Witness for `challenge_never_retried`: a first-attempt challenge
propagates with one call; three plain failures consume the 3-attempt
budget; a challenged item aborts a two-item loop. -/
theorem challenge_never_retried_witness :
    search_and_add_with_retry
      (fun a => if a = 1 then BodyOutcome.challenge "m" else BodyOutcome.ret true) 3
      = (.error (.botChallenge "m"), 1) ∧
    search_and_add_with_retry (fun _ => BodyOutcome.exc "boom") 3 = (.ok false, 3) ∧
    buildLoop (fun _ _ => BodyOutcome.challenge "m")
      [CartItem.mk "milk" 1 none none, CartItem.mk "eggs" 1 none none] 0 [] []
      = .error (.botChallenge "m") :=
  ⟨challenge_never_retried.1
      (fun a => if a = 1 then BodyOutcome.challenge "m" else BodyOutcome.ret true)
      1 "m" (by omega) (by omega)
      (fun a h1 h2 => absurd (Nat.lt_of_lt_of_le h2 h1) (lt_irrefl a)) rfl,
   challenge_never_retried.2.1 (fun _ => BodyOutcome.exc "boom")
      "boom" "boom" "boom" rfl rfl rfl,
   challenge_never_retried.2.2 (fun _ _ => BodyOutcome.challenge "m") 0
      (CartItem.mk "milk" 1 none none) [CartItem.mk "eggs" 1 none none] [] []
      (PyExc.botChallenge "m") rfl⟩

/-- **C4.**  Without a challenge: every item gets at most 3 attempts; an
item exhausting its attempts is recorded in the failed list without
aborting `build_cart`, whose result still carries the cart URL; and a
worker pass whose `build_cart` returns makes `process_job` mark the job
`done` with that cart URL as the result URL — even when the failed list is
non-empty. -/
theorem exhausted_items_do_not_abort :
    (∀ bodies : Nat → BodyOutcome, (search_and_add_with_retry bodies 3).2 ≤ 3) ∧
    (∀ (env : BuildEnv) (items : List CartItem) (jid : Option String),
      env.warmup = none → env.finalNav = none →
      (∀ i a m, env.bodies i a ≠ .challenge m) →
      ∃ r, (build_cart env items jid).1 = .ok r ∧ r.cart_url = env.cartUrl ∧
        ∀ (k : Nat) (hk : k < items.length),
          (∀ a, 1 ≤ a → a ≤ 3 →
            (env.bodies k a = .ret false ∨ ∃ s, env.bodies k a = .exc s)) →
          itemLabel (items.get ⟨k, hk⟩) ∈ r.failed) ∧
    (∀ (wenv : WorkerEnv) (job_id : String) (db : List JobRow) (r : BuildResult),
      wenv.item_rows ≠ [] → wenv.runs 1 = .ok r →
      (process_job wenv job_id db).result = .ok () ∧
      WEvent.jobUpdate job_id "done" (some r.cart_url) none
        ∈ (process_job wenv job_id db).events ∧
      ∀ row ∈ (process_job wenv job_id db).db, row.job_id = job_id →
        row.status = "done" ∧ row.result_url = some r.cart_url) := by
  refine ⟨fun bodies => sawrGo_count_le bodies 3 1, ?_, ?_⟩
  · intro env items jid hw hf hnc
    obtain ⟨⟨aL, fL⟩, hp, _, hmem⟩ :=
      buildLoop_no_challenge env.bodies items 0 [] [] hnc
    refine ⟨⟨env.cartUrl, aL, fL,
      if !fL.isEmpty && jid.isSome then env.shot else none⟩, ?_, rfl, ?_⟩
    · simp [build_cart, hw, hf, hp]
    · intro k hk hall
      have := hmem k hk (by simpa using hall)
      simpa using this
  · intro wenv job_id db r hne hruns
    have hie : wenv.item_rows.isEmpty = false := by
      obtain ⟨c, t, hct⟩ := exists_cons_of_ne_nil hne
      rw [hct]; rfl
    have hc0 : ∀ (d : List JobRow) (t : Nat) (s : String),
        call_update_job d t job_id s []
          = .ok (update_job_run d t job_id s none none) := fun _ _ _ => rfl
    have hcd : ∀ (d : List JobRow) (t : Nat),
        call_update_job d t job_id "done" [("result_url", some r.cart_url)]
          = .ok (update_job_run d t job_id "done" (some r.cart_url) none) :=
      fun _ _ => rfl
    have heq : process_job wenv job_id db =
        ⟨.ok (), update_job_run (update_job_run db 0 job_id "running" none none)
            1 job_id "done" (some r.cart_url) none,
         [WEvent.jobUpdate job_id "running" none none, WEvent.agentOpen,
          WEvent.jobUpdate job_id "done" (some r.cart_url) none,
          WEvent.fired "done" (some r.cart_url) none]⟩ := by
      simp [process_job, processLoop, hc0, hcd, hie, hruns]
    refine ⟨by rw [heq], by rw [heq]; simp, ?_⟩
    intro row hrow hid
    rw [heq] at hrow
    unfold update_job_run at hrow
    obtain ⟨x, _, rfl⟩ := List.mem_map.mp hrow
    by_cases hxid : x.job_id = job_id
    · simp [hxid]
    · rw [if_neg hxid] at hid ⊢
      exact absurd hid hxid

/-- Witness for `exhausted_items_do_not_abort`: a two-item build in which
the second item fails all three attempts still completes, carries the cart
URL, lists the second item as failed, and the worker marks the job
`done`. -/
theorem exhausted_items_do_not_abort_witness :
    (∃ r, (build_cart
        (BuildEnv.mk
          (fun i _ => if i = 0 then BodyOutcome.ret true else BodyOutcome.ret false)
          none none "https://www.walmart.ca/en/cart" none)
        [CartItem.mk "milk" 2 none none, CartItem.mk "eggs" 1 none none]
        (some "j1")).1 = .ok r ∧
      r.cart_url = (BuildEnv.mk
          (fun i _ => if i = 0 then BodyOutcome.ret true else BodyOutcome.ret false)
          none none "https://www.walmart.ca/en/cart" none).cartUrl ∧
      ∀ (k : Nat) (hk : k < ([CartItem.mk "milk" 2 none none,
          CartItem.mk "eggs" 1 none none] : List CartItem).length),
        (∀ a, 1 ≤ a → a ≤ 3 →
          ((fun i _ => if i = 0 then BodyOutcome.ret true else BodyOutcome.ret false)
              k a = BodyOutcome.ret false ∨
            ∃ s, (fun i _ => if i = 0 then BodyOutcome.ret true
                else BodyOutcome.ret false) k a = BodyOutcome.exc s)) →
        itemLabel (([CartItem.mk "milk" 2 none none,
          CartItem.mk "eggs" 1 none none] : List CartItem).get ⟨k, hk⟩) ∈ r.failed) ∧
    (process_job
        (WorkerEnv.mk (some (ChatRow.mk 5 "M5V3A1")) [CartItem.mk "milk" 2 none none]
          (fun _ => .ok (BuildResult.mk "https://www.walmart.ca/en/cart" ["milk"]
            ["eggs"] none))
          (fun _ => none) false)
        "j1" [JobRow.mk "j1" 5 "pending" none none 0 0]).result = .ok () :=
  ⟨exhausted_items_do_not_abort.2.1
      (BuildEnv.mk
        (fun i _ => if i = 0 then BodyOutcome.ret true else BodyOutcome.ret false)
        none none "https://www.walmart.ca/en/cart" none)
      [CartItem.mk "milk" 2 none none, CartItem.mk "eggs" 1 none none]
      (some "j1") rfl rfl (by intro i a m; by_cases h : i = 0 <;> simp [h]),
   (exhausted_items_do_not_abort.2.2
      (WorkerEnv.mk (some (ChatRow.mk 5 "M5V3A1")) [CartItem.mk "milk" 2 none none]
        (fun _ => .ok (BuildResult.mk "https://www.walmart.ca/en/cart" ["milk"]
          ["eggs"] none))
        (fun _ => none) false)
      "j1" [JobRow.mk "j1" 5 "pending" none none 0 0]
      (BuildResult.mk "https://www.walmart.ca/en/cart" ["milk"] ["eggs"] none)
      (by simp) rfl).1⟩

/-- **C2, counterexample.**  On an empty item list the status updates of
the run are `["running", "failed"]`: the job is marked `running` on
dispatch (line 117 of `src/workers/job_worker.py`) before the item check,
so it does not transition *directly* from `pending` to `failed`. -/
theorem empty_items_not_direct_to_failed :
    ((process_job
        (WorkerEnv.mk (some (ChatRow.mk 5 "M5V3A1")) []
          (fun _ => .error (.other "unused")) (fun _ => none) false)
        "j1" [JobRow.mk "j1" 5 "pending" none none 0 0]).events.filterMap
      (fun e => match e with
        | WEvent.jobUpdate _ s _ _ => some s
        | _ => none)) = ["running", "failed"] ∧
    (["running", "failed"] : List String) ≠ ["failed"] := by
  refine ⟨by decide, by decide⟩

/-- **C2, amended.**  On an empty item list the job goes
`pending → running → failed` (the dispatch marks it `running` first), with
the descriptive error `"No items in list"`, and no browser session is
opened: the run performs exactly the two updates and the callback, never a
`WalmartAgent.__aenter__`. -/
theorem empty_items_fail_without_browser (env : WorkerEnv) (job_id : String)
    (db : List JobRow) (h : env.item_rows = []) :
    (process_job env job_id db).events
      = [WEvent.jobUpdate job_id "running" none none,
         WEvent.jobUpdate job_id "failed" none (some "No items in list"),
         WEvent.fired "failed" none (some "No items in list")] ∧
    WEvent.agentOpen ∉ (process_job env job_id db).events ∧
    (process_job env job_id db).result = .ok () ∧
    ∀ r ∈ (process_job env job_id db).db, r.job_id = job_id →
      r.status = "failed" ∧ r.error = some "No items in list" := by
  have hc0 : ∀ (d : List JobRow) (t : Nat),
      call_update_job d t job_id "running" []
        = .ok (update_job_run d t job_id "running" none none) := fun _ _ => rfl
  have hcf : ∀ (d : List JobRow) (t : Nat),
      call_update_job d t job_id "failed" [("error", some "No items in list")]
        = .ok (update_job_run d t job_id "failed" none
            (some "No items in list")) := fun _ _ => rfl
  have heq : process_job env job_id db =
      ⟨.ok (), update_job_run (update_job_run db 0 job_id "running" none none)
          1 job_id "failed" none (some "No items in list"),
       [WEvent.jobUpdate job_id "running" none none,
        WEvent.jobUpdate job_id "failed" none (some "No items in list"),
        WEvent.fired "failed" none (some "No items in list")]⟩ := by
    simp [process_job, hc0, hcf, h]
  refine ⟨by rw [heq], by rw [heq]; simp, by rw [heq], ?_⟩
  intro row hrow hid
  rw [heq] at hrow
  unfold update_job_run at hrow
  obtain ⟨x, _, rfl⟩ := List.mem_map.mp hrow
  by_cases hxid : x.job_id = job_id
  · simp [hxid]
  · rw [if_neg hxid] at hid ⊢
    exact absurd hid hxid

/-- Witness for `empty_items_fail_without_browser` at a concrete run. -/
theorem empty_items_fail_without_browser_witness :
    (process_job
        (WorkerEnv.mk (some (ChatRow.mk 5 "M5V3A1")) []
          (fun _ => .error (.other "unused")) (fun _ => none) false)
        "j1" [JobRow.mk "j1" 5 "pending" none none 0 0]).events
      = [WEvent.jobUpdate "j1" "running" none none,
         WEvent.jobUpdate "j1" "failed" none (some "No items in list"),
         WEvent.fired "failed" none (some "No items in list")] :=
  (empty_items_fail_without_browser
    (WorkerEnv.mk (some (ChatRow.mk 5 "M5V3A1")) []
      (fun _ => .error (.other "unused")) (fun _ => none) false)
    "j1" [JobRow.mk "j1" 5 "pending" none none 0 0] rfl).1

/-- **C1.**  A job whose both automated passes raise a challenge (the
silent refresh succeeding in between) never reaches `needs_user`: the
handler calls `update_job(job_id, "needs_user", error=msg,
screenshot=screenshot)`, but `update_job` (src/db/database.py:155) has no
`screenshot` parameter (nor does the `jobs` table have such a column), so
the call raises `TypeError` before any update runs.  The exception escapes
`process_job`, no `needs_user` update and no callback ever happen, and the
job stays in status `running`. -/
theorem challenge_escalation_typeerror :
    (process_job
        (WorkerEnv.mk (some (ChatRow.mk 5 "M5V3A1")) [CartItem.mk "milk" 1 none none]
          (fun _ => .error (.botChallenge "Bot challenge detected"))
          (fun _ => some "storage/screenshots/j1.png") true)
        "j1" [JobRow.mk "j1" 5 "pending" none none 0 0]).result
      = .error (.typeError "update_job() got an unexpected keyword argument") ∧
    (process_job
        (WorkerEnv.mk (some (ChatRow.mk 5 "M5V3A1")) [CartItem.mk "milk" 1 none none]
          (fun _ => .error (.botChallenge "Bot challenge detected"))
          (fun _ => some "storage/screenshots/j1.png") true)
        "j1" [JobRow.mk "j1" 5 "pending" none none 0 0]).events
      = [WEvent.jobUpdate "j1" "running" none none, WEvent.agentOpen,
         WEvent.refreshCall, WEvent.agentOpen] ∧
    (∀ r ∈ (process_job
        (WorkerEnv.mk (some (ChatRow.mk 5 "M5V3A1")) [CartItem.mk "milk" 1 none none]
          (fun _ => .error (.botChallenge "Bot challenge detected"))
          (fun _ => some "storage/screenshots/j1.png") true)
        "j1" [JobRow.mk "j1" 5 "pending" none none 0 0]).db,
      r.status = "running") := by
  refine ⟨rfl, rfl, by decide⟩

/-- Witness for `update_job_overwrites_and_frames`: updating job `"j1"` to
`running` with no keywords clears the stored result URL and error of its
row and leaves the other columns alone. -/
theorem update_job_overwrites_and_frames_witness :
    ∃ r' ∈ update_job_run
        [JobRow.mk "j1" 5 "done" (some "u") (some "e") 3 4] 9 "j1" "running"
        none none,
      r'.job_id = (JobRow.mk "j1" 5 "done" (some "u") (some "e") 3 4).job_id ∧
      r'.chat_id = (JobRow.mk "j1" 5 "done" (some "u") (some "e") 3 4).chat_id ∧
      r'.created_at = (JobRow.mk "j1" 5 "done" (some "u") (some "e") 3 4).created_at ∧
      ((JobRow.mk "j1" 5 "done" (some "u") (some "e") 3 4).job_id = "j1" →
        r'.status = "running" ∧ r'.result_url = none ∧ r'.error = none ∧
        r'.updated_at = 9) ∧
      ((JobRow.mk "j1" 5 "done" (some "u") (some "e") 3 4).job_id ≠ "j1" →
        r' = JobRow.mk "j1" 5 "done" (some "u") (some "e") 3 4) :=
  update_job_overwrites_and_frames.1
    [JobRow.mk "j1" 5 "done" (some "u") (some "e") 3 4] 9 "j1" "running"
    none none (JobRow.mk "j1" 5 "done" (some "u") (some "e") 3 4) (by decide)

end ShoppingAgent
